import Mathlib

/-!
Verification of the runtime capability model of the teams-js client SDK.

The embedding covers:
* `src/packages/teams-js/src/public/runtime.ts` — the capability registry
  (`IRuntime`), the legacy baseline `teamsRuntimeConfig`, the version
  threshold table `versionConstants` and `generateBackCompatRuntimeConfig`.
* Components whose implementation is not part of the staged sources
  (the version comparator, the is-supported queries, the init/context
  guards, the message-correlation engine, deep freezing) are modelled
  from the spec; each such definition carries a doc comment starting
  `Modelled from the spec:` and is cross-checked against the test files
  that are staged under src/unnamed.

A version string "MAJOR.MINOR.PATCH" is embedded as its list of numeric
segments (e.g. "1.9.0" becomes [1, 9, 0]); host client types and frame
contexts are embedded as the strings of the corresponding TS enums
(runtime.ts itself types hostClientTypes as Array of string).
-/

/-- Modelled from the spec: the Version Comparator (spec section 4.1; the
function `compareSDKVersions` lives in internal/utils.ts, which is not among
the staged sources). Given two versions as lists of numeric segments it
returns a tri-state ordering: negative when the first is smaller, zero when
equal, positive when the first is greater; comparison is numeric per segment,
left to right, the first differing segment decides, and a missing segment
defaults to 0. -/
def cmpZero : List Nat → Int
  | [] => 0
  | b :: bs => if 0 < b then -1 else cmpZero bs

/-- Modelled from the spec: the main comparison loop (see the doc comment on
`cmpZero` above for the whole comparator). The first equation is the
exhausted-first-version case: the remaining segments of the second version
are compared against padded zeros by `cmpZero`. -/
def compareSDKVersions : List Nat → List Nat → Int
  | [], b => cmpZero b
  | a :: as, [] => if 0 < a then 1 else compareSDKVersions as []
  | a :: as, b :: bs =>
      if b < a then 1 else if a < b then -1 else compareSDKVersions as bs

theorem compareSDKVersions_nil (b : List Nat) :
    compareSDKVersions [] b = cmpZero b := rfl

/-- The `supports.chat` fragment of `IRuntime` (runtime.ts, lines 14-16). -/
structure ChatSupports where
  conversation : Option Unit
deriving DecidableEq

/-- The `supports.dialog` fragment of `IRuntime` (runtime.ts, lines 17-20). -/
structure DialogSupports where
  bot : Option Unit
  update : Option Unit
deriving DecidableEq

/-- The `supports.pages` fragment of `IRuntime` (runtime.ts, lines 31-37). -/
structure PagesSupports where
  appButton : Option Unit
  tabs : Option Unit
  config : Option Unit
  backStack : Option Unit
  fullTrust : Option Unit
deriving DecidableEq

/-- The `supports.teams.fullTrust` fragment of `IRuntime` (runtime.ts, lines 42-44). -/
structure TeamsFullTrustSupports where
  joinedTeams : Option Unit
deriving DecidableEq

/-- The `supports.teams` fragment of `IRuntime` (runtime.ts, lines 41-45). -/
structure TeamsSupports where
  fullTrust : Option TeamsFullTrustSupports
deriving DecidableEq

/-- The `supports` tree of `IRuntime` (runtime.ts, lines 9-48). A field value
`none` embeds both an absent key and a key explicitly set to `undefined`
(indistinguishable to every reader); `some` embeds a present object. -/
structure Supports where
  appInstallDialog : Option Unit
  appEntity : Option Unit
  calendar : Option Unit
  call : Option Unit
  chat : Option ChatSupports
  dialog : Option DialogSupports
  files : Option Unit
  location : Option Unit
  logs : Option Unit
  mail : Option Unit
  media : Option Unit
  meeting : Option Unit
  meetingRoom : Option Unit
  menus : Option Unit
  monetization : Option Unit
  notifications : Option Unit
  pages : Option PagesSupports
  people : Option Unit
  remoteCamera : Option Unit
  sharing : Option Unit
  teams : Option TeamsSupports
  teamsCore : Option Unit
  video : Option Unit
deriving DecidableEq

/-- The runtime interface `IRuntime` (runtime.ts, lines 6-49). `isLegacyTeams`
is an optional boolean field. -/
structure IRuntime where
  apiVersion : Nat
  isLegacyTeams : Option Bool
  supports : Supports
deriving DecidableEq

/-- The initial value of the module-level mutable `runtime` binding
(runtime.ts, lines 51-91): apiVersion 1, no isLegacyTeams key, leaf
capabilities explicitly undefined, while chat, dialog, pages and teams (and
teams.fullTrust) are present container objects whose children are undefined;
appEntity and files are absent keys. -/
def initialRuntime : IRuntime :=
  { apiVersion := 1
  , isLegacyTeams := none
  , supports :=
    { appInstallDialog := none
    , appEntity := none
    , calendar := none
    , call := none
    , chat := some { conversation := none }
    , dialog := some { bot := none, update := none }
    , files := none
    , location := none
    , logs := none
    , mail := none
    , media := none
    , meeting := none
    , meetingRoom := none
    , menus := none
    , monetization := none
    , notifications := none
    , pages := some { appButton := none, tabs := none, config := none, backStack := none, fullTrust := none }
    , people := none
    , remoteCamera := none
    , sharing := none
    , teams := some { fullTrust := some { joinedTeams := none } }
    , teamsCore := none
    , video := none } }

/-- The legacy baseline registry `teamsRuntimeConfig` (runtime.ts, lines
93-130). -/
def teamsRuntimeConfig : IRuntime :=
  { apiVersion := 1
  , isLegacyTeams := some true
  , supports :=
    { appInstallDialog := some ()
    , appEntity := some ()
    , calendar := none
    , call := some ()
    , chat := some { conversation := some () }
    , dialog := some { bot := some (), update := some () }
    , files := some ()
    , location := none
    , logs := some ()
    , mail := none
    , media := some ()
    , meeting := some ()
    , meetingRoom := some ()
    , menus := some ()
    , monetization := some ()
    , notifications := some ()
    , pages := some { appButton := some (), tabs := some (), config := some (), backStack := some (), fullTrust := some () }
    , people := none
    , remoteCamera := some ()
    , sharing := some ()
    , teams := some { fullTrust := some { joinedTeams := none } }
    , teamsCore := some ()
    , video := some () } }

/-- Host client type string values (the `HostClientType` enum of constants.ts
is not among the staged sources; runtime.ts types `hostClientTypes` as
`Array of string`, so host client types are embedded as strings — only their
distinctness matters to the claims). -/
def HostClientType.desktop : String := "desktop"

def HostClientType.web : String := "web"

def HostClientType.android : String := "android"

def HostClientType.ios : String := "ios"

def HostClientType.rigel : String := "rigel"

def HostClientType.surfaceHub : String := "surfaceHub"

def HostClientType.teamsRoomsWindows : String := "teamsRoomsWindows"

def HostClientType.teamsRoomsAndroid : String := "teamsRoomsAndroid"

def HostClientType.teamsPhones : String := "teamsPhones"

def HostClientType.teamsDisplays : String := "teamsDisplays"

/-- The `v1HostClientTypes` list (runtime.ts, lines 137-148). -/
def v1HostClientTypes : List String :=
  [ HostClientType.desktop
  , HostClientType.web
  , HostClientType.android
  , HostClientType.ios
  , HostClientType.rigel
  , HostClientType.surfaceHub
  , HostClientType.teamsRoomsWindows
  , HostClientType.teamsRoomsAndroid
  , HostClientType.teamsPhones
  , HostClientType.teamsDisplays ]

/-- The host client types of the "2.0.1" threshold entry (runtime.ts, lines
166-171; the source inlines this list). -/
def androidHostClientTypes : List String :=
  [ HostClientType.android
  , HostClientType.teamsRoomsAndroid
  , HostClientType.teamsPhones
  , HostClientType.teamsDisplays ]

/-- A capability requirement entry (`ICapabilityReqs`, runtime.ts, lines
132-135). The `capability` field is a partial supports-tree fragment; a JS
spread `\x7b...base, ...capability\x7d` replaces the fragment's top-level keys
wholesale, which the embedding renders as the corresponding update of the
`Supports` record. -/
structure ICapabilityReqs where
  capability : Supports → Supports
  hostClientTypes : List String

/-- The version threshold table `versionConstants` (runtime.ts, lines
150-174); `Object.keys` enumerates the string keys in insertion order, which
the list order preserves. -/
def versionConstants : List (List Nat × List ICapabilityReqs) :=
  [ ([1, 9, 0],
      [ { capability := fun s => { s with location := some () }
        , hostClientTypes := v1HostClientTypes } ])
  , ([2, 0, 0],
      [ { capability := fun s => { s with people := some () }
        , hostClientTypes := v1HostClientTypes } ])
  , ([2, 0, 1],
      [ { capability := fun s =>
            { s with teams := some { fullTrust := some { joinedTeams := some () } } }
        , hostClientTypes := androidHostClientTypes } ]) ]

/-- `generateBackCompatRuntimeConfig` (runtime.ts, lines 186-208). The host
client type is the module global `GlobalVars.hostClientType`, passed here as
an explicit parameter; the working tree starts from a shallow copy of
`teamsRuntimeConfig.supports` and every threshold entry whose version key is
at most the declared version and whose host list contains the host client
type merges its capability fragment. -/
def generateBackCompatRuntimeConfig (hostClientType : String)
    (highestSupportedVersion : List Nat) : IRuntime :=
  let newSupports := versionConstants.foldl
    (fun acc entry =>
      if compareSDKVersions highestSupportedVersion entry.1 ≥ 0 then
        entry.2.foldl
          (fun acc2 capabilityReqs =>
            if hostClientType ∈ capabilityReqs.hostClientTypes then
              capabilityReqs.capability acc2
            else acc2)
          acc
      else acc)
    teamsRuntimeConfig.supports
  { apiVersion := 1, isLegacyTeams := some true, supports := newSupports }

/-- A capability or sub-capability path of the supports tree (the dotted
paths of the `IRuntime.supports` interface). -/
inductive CapPath where
  | appInstallDialog
  | appEntity
  | calendar
  | call
  | chat
  | chat_conversation
  | dialog
  | dialog_bot
  | dialog_update
  | files
  | location
  | logs
  | mail
  | media
  | meeting
  | meetingRoom
  | menus
  | monetization
  | notifications
  | pages
  | pages_appButton
  | pages_tabs
  | pages_config
  | pages_backStack
  | pages_fullTrust
  | people
  | remoteCamera
  | sharing
  | teams
  | teams_fullTrust
  | teams_fullTrust_joinedTeams
  | teamsCore
  | video
deriving DecidableEq, Fintype

/-- Modelled from the spec: the is-supported query along a dotted capability
path (spec sections 3 and 6): a path is supported iff every object on it is
present (non-undefined) — an empty object counts as supported; an undefined
or absent parent makes every deeper path unsupported. -/
def Supports.pathSupported (s : Supports) : CapPath → Bool
  | .appInstallDialog => s.appInstallDialog.isSome
  | .appEntity => s.appEntity.isSome
  | .calendar => s.calendar.isSome
  | .call => s.call.isSome
  | .chat => s.chat.isSome
  | .chat_conversation =>
      match s.chat with
      | some c => c.conversation.isSome
      | none => false
  | .dialog => s.dialog.isSome
  | .dialog_bot =>
      match s.dialog with
      | some d => d.bot.isSome
      | none => false
  | .dialog_update =>
      match s.dialog with
      | some d => d.update.isSome
      | none => false
  | .files => s.files.isSome
  | .location => s.location.isSome
  | .logs => s.logs.isSome
  | .mail => s.mail.isSome
  | .media => s.media.isSome
  | .meeting => s.meeting.isSome
  | .meetingRoom => s.meetingRoom.isSome
  | .menus => s.menus.isSome
  | .monetization => s.monetization.isSome
  | .notifications => s.notifications.isSome
  | .pages => s.pages.isSome
  | .pages_appButton =>
      match s.pages with
      | some p => p.appButton.isSome
      | none => false
  | .pages_tabs =>
      match s.pages with
      | some p => p.tabs.isSome
      | none => false
  | .pages_config =>
      match s.pages with
      | some p => p.config.isSome
      | none => false
  | .pages_backStack =>
      match s.pages with
      | some p => p.backStack.isSome
      | none => false
  | .pages_fullTrust =>
      match s.pages with
      | some p => p.fullTrust.isSome
      | none => false
  | .people => s.people.isSome
  | .remoteCamera => s.remoteCamera.isSome
  | .sharing => s.sharing.isSome
  | .teams => s.teams.isSome
  | .teams_fullTrust =>
      match s.teams with
      | some t => t.fullTrust.isSome
      | none => false
  | .teams_fullTrust_joinedTeams =>
      match s.teams with
      | some t =>
          match t.fullTrust with
          | some ft => ft.joinedTeams.isSome
          | none => false
      | none => false
  | .teamsCore => s.teamsCore.isSome
  | .video => s.video.isSome

/-- The back-compat supports tree as a function of the five Booleans it
actually depends on: membership of the host client type in the two host
lists, and the three version-threshold comparisons. -/
def genCoreSupports (inV1 inAndroid b190 b200 b201 : Bool) : Supports :=
  { teamsRuntimeConfig.supports with
    location :=
      if b190 && inV1 then some () else teamsRuntimeConfig.supports.location
    , people :=
      if b200 && inV1 then some () else teamsRuntimeConfig.supports.people
    , teams :=
      if b201 && inAndroid then some { fullTrust := some { joinedTeams := some () } }
      else teamsRuntimeConfig.supports.teams }

/-- The spec's description of back-compat synthesis (spec section 4.2),
phrased pointwise: the baseline supports tree extended with exactly the
capability fragments of the threshold entries whose version key is at most
the declared version and whose host list contains the host client type. -/
def specBackCompatSupports (hostClientType : String) (v : List Nat) : Supports :=
  { teamsRuntimeConfig.supports with
    location :=
      if compareSDKVersions v [1, 9, 0] ≥ 0 ∧ hostClientType ∈ v1HostClientTypes
      then some () else teamsRuntimeConfig.supports.location
    , people :=
      if compareSDKVersions v [2, 0, 0] ≥ 0 ∧ hostClientType ∈ v1HostClientTypes
      then some () else teamsRuntimeConfig.supports.people
    , teams :=
      if compareSDKVersions v [2, 0, 1] ≥ 0 ∧ hostClientType ∈ androidHostClientTypes
      then some { fullTrust := some { joinedTeams := some () } }
      else teamsRuntimeConfig.supports.teams }

theorem gen_eq_core (H : String) (v : List Nat) :
    (generateBackCompatRuntimeConfig H v).supports =
      genCoreSupports (decide (H ∈ v1HostClientTypes))
        (decide (H ∈ androidHostClientTypes))
        (decide (compareSDKVersions v [1, 9, 0] ≥ 0))
        (decide (compareSDKVersions v [2, 0, 0] ≥ 0))
        (decide (compareSDKVersions v [2, 0, 1] ≥ 0)) := by
  by_cases h1 : compareSDKVersions v [1, 9, 0] ≥ 0 <;>
  by_cases h2 : compareSDKVersions v [2, 0, 0] ≥ 0 <;>
  by_cases h3 : compareSDKVersions v [2, 0, 1] ≥ 0 <;>
  by_cases hm1 : H ∈ v1HostClientTypes <;>
  by_cases hm2 : H ∈ androidHostClientTypes <;>
  simp [generateBackCompatRuntimeConfig, versionConstants, genCoreSupports,
    h1, h2, h3, hm1, hm2]

theorem spec_eq_core (H : String) (v : List Nat) :
    specBackCompatSupports H v =
      genCoreSupports (decide (H ∈ v1HostClientTypes))
        (decide (H ∈ androidHostClientTypes))
        (decide (compareSDKVersions v [1, 9, 0] ≥ 0))
        (decide (compareSDKVersions v [2, 0, 0] ≥ 0))
        (decide (compareSDKVersions v [2, 0, 1] ≥ 0)) := by
  by_cases h1 : compareSDKVersions v [1, 9, 0] ≥ 0 <;>
  by_cases h2 : compareSDKVersions v [2, 0, 0] ≥ 0 <;>
  by_cases h3 : compareSDKVersions v [2, 0, 1] ≥ 0 <;>
  by_cases hm1 : H ∈ v1HostClientTypes <;>
  by_cases hm2 : H ∈ androidHostClientTypes <;>
  simp [specBackCompatSupports, genCoreSupports, h1, h2, h3, hm1, hm2]

theorem compareSDKVersions_nil_nonpos (b : List Nat) :
    compareSDKVersions [] b ≤ 0 := by
  rw [compareSDKVersions_nil]
  induction b with
  | nil => norm_num [cmpZero]
  | cons x xs ih =>
      simp only [cmpZero]
      by_cases hx : 0 < x
      · rw [if_pos hx]; omega
      · rw [if_neg hx]; exact ih

theorem compareSDKVersions_nil_flip (b : List Nat) :
    compareSDKVersions [] b = -(compareSDKVersions b []) := by
  induction b with
  | nil => norm_num [compareSDKVersions, cmpZero]
  | cons x xs ih =>
      rw [compareSDKVersions_nil] at ih ⊢
      simp only [cmpZero, compareSDKVersions]
      by_cases hx : 0 < x
      · rw [if_pos hx, if_pos hx]
      · rw [if_neg hx, if_neg hx]; exact ih

theorem compareSDKVersions_flip (a : List Nat) :
    ∀ b, compareSDKVersions a b = -(compareSDKVersions b a) := by
  induction a with
  | nil => intro b; exact compareSDKVersions_nil_flip b
  | cons x xs ih =>
      intro b
      cases b with
      | nil =>
          have h := compareSDKVersions_nil_flip (x :: xs)
          omega
      | cons y ys =>
          simp only [compareSDKVersions]
          rcases Nat.lt_trichotomy x y with h | h | h
          · rw [if_neg (by omega), if_pos h, if_pos h]
          · subst h
            rw [if_neg (by omega), if_neg (by omega), if_neg (by omega),
              if_neg (by omega)]
            exact ih ys
          · rw [if_pos h, if_neg (by omega), if_pos h]
            omega

theorem compareSDKVersions_allZero_of_le (a : List Nat)
    (h : compareSDKVersions a [] ≤ 0) : ∀ x ∈ a, x = 0 := by
  induction a with
  | nil => simp
  | cons x xs ih =>
      simp only [compareSDKVersions] at h
      by_cases hx : 0 < x
      · rw [if_pos hx] at h; omega
      · rw [if_neg hx] at h
        intro t ht
        rcases List.mem_cons.mp ht with rfl | ht2
        · omega
        · exact ih h t ht2

theorem compareSDKVersions_nil_of_allZero (a : List Nat)
    (hz : ∀ x ∈ a, x = 0) :
    ∀ c, compareSDKVersions a c = compareSDKVersions [] c := by
  induction a with
  | nil => intro c; rfl
  | cons x xs ih =>
      have hx : x = 0 := hz x (by simp)
      have hxs : ∀ t ∈ xs, t = 0 := fun t ht => hz t (by simp [ht])
      subst hx
      intro c
      cases c with
      | nil =>
          simp only [compareSDKVersions, cmpZero]
          rw [if_neg (lt_irrefl 0), ih hxs []]
          norm_num [compareSDKVersions, cmpZero]
      | cons y ys =>
          simp only [compareSDKVersions, cmpZero]
          by_cases hy : 0 < y
          · rw [if_neg (by omega), if_pos hy, if_pos hy]
          · have hy0 : y = 0 := by omega
            subst hy0
            rw [if_neg (by omega), if_neg (by omega), if_neg (by omega)]
            exact (ih hxs ys).trans (compareSDKVersions_nil ys)

theorem compareSDKVersions_nil_right_of_allZero (b : List Nat)
    (hz : ∀ x ∈ b, x = 0) (a : List Nat) :
    compareSDKVersions a b = compareSDKVersions a [] := by
  rw [compareSDKVersions_flip a b, compareSDKVersions_nil_of_allZero b hz a,
    compareSDKVersions_flip a []]

theorem compareSDKVersions_trans (a : List Nat) : ∀ b c : List Nat,
    compareSDKVersions a b ≤ 0 → compareSDKVersions b c ≤ 0 →
    compareSDKVersions a c ≤ 0 := by
  induction a with
  | nil => intro b c _ _; exact compareSDKVersions_nil_nonpos c
  | cons x xs ih =>
      intro b c hab hbc
      cases b with
      | nil =>
          have hz : ∀ t ∈ x :: xs, t = 0 :=
            compareSDKVersions_allZero_of_le (x :: xs) hab
          rw [compareSDKVersions_nil_of_allZero (x :: xs) hz c]
          exact compareSDKVersions_nil_nonpos c
      | cons y ys =>
          cases c with
          | nil =>
              have hz : ∀ t ∈ y :: ys, t = 0 :=
                compareSDKVersions_allZero_of_le (y :: ys) hbc
              have hy : y = 0 := hz y (by simp)
              have hys : ∀ t ∈ ys, t = 0 := fun t ht => hz t (by simp [ht])
              subst hy
              simp only [compareSDKVersions] at hab ⊢
              by_cases hx : 0 < x
              · rw [if_pos hx] at hab; omega
              · rw [if_neg hx, if_neg (by omega)] at hab
                rw [if_neg hx]
                rw [compareSDKVersions_nil_right_of_allZero ys hys xs] at hab
                exact hab
          | cons z zs =>
              simp only [compareSDKVersions] at hab hbc ⊢
              by_cases hyx : y < x
              · rw [if_pos hyx] at hab; omega
              · rw [if_neg hyx] at hab
                by_cases hzy : z < y
                · rw [if_pos hzy] at hbc; omega
                · rw [if_neg hzy] at hbc
                  rw [if_neg (by omega)]
                  by_cases hxz : x < z
                  · rw [if_pos hxz]; omega
                  · rw [if_neg hxz]
                    rw [if_neg (by omega)] at hab
                    rw [if_neg (by omega)] at hbc
                    exact ih ys zs hab hbc

theorem compareSDKVersions_ge_mono {v1 v2 k : List Nat}
    (h12 : compareSDKVersions v1 v2 ≤ 0)
    (hk : compareSDKVersions v1 k ≥ 0) :
    compareSDKVersions v2 k ≥ 0 := by
  have h1 : compareSDKVersions k v1 ≤ 0 := by
    rw [compareSDKVersions_flip k v1]; omega
  have h2 := compareSDKVersions_trans k v1 v2 h1 h12
  rw [compareSDKVersions_flip v2 k]
  omega

theorem genCoreSupports_mono :
    ∀ iv ia b1 b2 b3 c1 c2 c3 : Bool,
      (b1 = true → c1 = true) → (b2 = true → c2 = true) →
      (b3 = true → c3 = true) →
      ∀ p : CapPath,
        Supports.pathSupported (genCoreSupports iv ia b1 b2 b3) p = true →
        Supports.pathSupported (genCoreSupports iv ia c1 c2 c3) p = true := by
  decide

/-- C1: for every declared version v and host client type H,
`generateBackCompatRuntimeConfig` returns a registry whose supports tree is
the legacy baseline `teamsRuntimeConfig.supports` extended with exactly the
capability fragments of the threshold entries whose version key k satisfies
`compareSDKVersions v k >= 0` and whose hostClientTypes list contains H
(first conjunct, for all hosts and versions); in particular, for H in
`v1HostClientTypes`, version 1.9.0 yields a registry supporting location but
not people, 2.0.0 yields both, and 1.5.0 yields neither. -/
theorem backCompat_supports_exact (H : String) (hH : H ∈ v1HostClientTypes) :
    (∀ H2 : String, ∀ v : List Nat,
        (generateBackCompatRuntimeConfig H2 v).supports =
          specBackCompatSupports H2 v) ∧
    Supports.pathSupported
      (generateBackCompatRuntimeConfig H [1, 9, 0]).supports CapPath.location = true ∧
    Supports.pathSupported
      (generateBackCompatRuntimeConfig H [1, 9, 0]).supports CapPath.people = false ∧
    Supports.pathSupported
      (generateBackCompatRuntimeConfig H [2, 0, 0]).supports CapPath.location = true ∧
    Supports.pathSupported
      (generateBackCompatRuntimeConfig H [2, 0, 0]).supports CapPath.people = true ∧
    Supports.pathSupported
      (generateBackCompatRuntimeConfig H [1, 5, 0]).supports CapPath.location = false ∧
    Supports.pathSupported
      (generateBackCompatRuntimeConfig H [1, 5, 0]).supports CapPath.people = false := by
  refine ⟨fun H2 v => (gen_eq_core H2 v).trans (spec_eq_core H2 v).symm,
    ?_, ?_, ?_, ?_, ?_, ?_⟩
  all_goals
    rw [gen_eq_core, decide_eq_true hH]
    cases hA : decide (H ∈ androidHostClientTypes) <;> decide

theorem backCompat_supports_exact_witness :
    (generateBackCompatRuntimeConfig HostClientType.desktop [1, 9, 0]).supports =
      specBackCompatSupports HostClientType.desktop [1, 9, 0] ∧
    Supports.pathSupported
      (generateBackCompatRuntimeConfig HostClientType.web [1, 9, 0]).supports
      CapPath.location = true := by
  have h := backCompat_supports_exact HostClientType.web (by decide)
  exact ⟨h.1 HostClientType.desktop [1, 9, 0], h.2.1⟩

/-- C3: back-compat synthesis is monotone in the declared version: whenever
`compareSDKVersions v1 v2 <= 0`, every capability path supported by the
registry synthesized for v1 is also supported by the one synthesized for
v2, for any current host client type. -/
theorem backCompat_monotone_in_version (H : String) (v1 v2 : List Nat)
    (h : compareSDKVersions v1 v2 ≤ 0) (p : CapPath)
    (hp : Supports.pathSupported
      (generateBackCompatRuntimeConfig H v1).supports p = true) :
    Supports.pathSupported
      (generateBackCompatRuntimeConfig H v2).supports p = true := by
  rw [gen_eq_core] at hp ⊢
  refine genCoreSupports_mono _ _ _ _ _ _ _ _ ?_ ?_ ?_ p hp
  all_goals
    intro hb
    exact decide_eq_true (compareSDKVersions_ge_mono h (of_decide_eq_true hb))

theorem backCompat_monotone_in_version_witness :
    Supports.pathSupported
      (generateBackCompatRuntimeConfig HostClientType.web [2, 0, 0]).supports
      CapPath.location = true :=
  backCompat_monotone_in_version HostClientType.web [1, 9, 0] [2, 0, 0]
    (by decide) CapPath.location (by decide)

/-- C4: a host client type that is a member of no threshold entry's
hostClientTypes list gains nothing from back-compat synthesis: for every
declared version the synthesized supports tree equals the legacy baseline
`teamsRuntimeConfig.supports` exactly. -/
theorem backCompat_unknown_host_keeps_baseline (H : String) (v : List Nat)
    (hH : ∀ entry ∈ versionConstants, ∀ req ∈ entry.2,
      H ∉ req.hostClientTypes) :
    (generateBackCompatRuntimeConfig H v).supports =
      teamsRuntimeConfig.supports := by
  simp only [versionConstants, List.forall_mem_cons] at hH
  obtain ⟨⟨h1, -⟩, -, ⟨h3, -⟩, -⟩ := hH
  rw [gen_eq_core, decide_eq_false h1, decide_eq_false h3]
  simp [genCoreSupports]

theorem backCompat_unknown_host_keeps_baseline_witness :
    (generateBackCompatRuntimeConfig ("linux") [9, 9, 9]).supports =
      teamsRuntimeConfig.supports :=
  backCompat_unknown_host_keeps_baseline ("linux") [9, 9, 9] (by decide)

/-- Modelled from the spec: the `dialog.isSupported` query (its
implementation is not among the staged sources; the behavior is fixed by
spec sections 3 and 6 and asserted by the staged tests, src/unnamed/part_000
lines 266-276): a capability is supported iff the corresponding key of the
current runtime's supports tree holds a non-undefined object. -/
def dialog.isSupported (rt : IRuntime) : Bool :=
  rt.supports.dialog.isSome

/-- Modelled from the spec: the `dialog.update.isSupported` sub-capability
query (staged tests, src/unnamed/part_000 lines 188-203): false when the
parent dialog entry is itself undefined, otherwise true iff the update key
holds a non-undefined object. -/
def dialog.update.isSupported (rt : IRuntime) : Bool :=
  match rt.supports.dialog with
  | some d => d.update.isSome
  | none => false

/-- A supports tree with every capability key undefined, as published by the
staged tests via `setRuntimeConfig (apiVersion 1, supports empty)`. -/
def emptySupports : Supports :=
  { appInstallDialog := none
  , appEntity := none
  , calendar := none
  , call := none
  , chat := none
  , dialog := none
  , files := none
  , location := none
  , logs := none
  , mail := none
  , media := none
  , meeting := none
  , meetingRoom := none
  , menus := none
  , monetization := none
  , notifications := none
  , pages := none
  , people := none
  , remoteCamera := none
  , sharing := none
  , teams := none
  , teamsCore := none
  , video := none }

/-- The registry published by the staged tests as `supports: \x7b\x7d`. -/
def runtimeEmptySupports : IRuntime :=
  { apiVersion := 1, isLegacyTeams := none, supports := emptySupports }

/-- The registry published by the staged tests as `supports: \x7b dialog: \x7b\x7d \x7d`. -/
def runtimeDialogEmpty : IRuntime :=
  { apiVersion := 1, isLegacyTeams := none
  , supports := { emptySupports with dialog := some { bot := none, update := none } } }

/-- The registry published by the staged tests as
`supports: \x7b dialog: \x7b update: \x7b\x7d \x7d \x7d`. -/
def runtimeDialogUpdate : IRuntime :=
  { apiVersion := 1, isLegacyTeams := none
  , supports := { emptySupports with dialog := some { bot := none, update := some () } } }

/-- C2: a capability-support query answers true iff the corresponding key of
the current runtime's supports tree holds a non-undefined object:
dialog.isSupported is false when supports.dialog is undefined (or absent) and
true for any present dialog object, empty or populated; dialog.update.isSupported
is false when supports.dialog is undefined and when the present dialog object
lacks update, and true when dialog.update holds an object. Both queries are
total functions of the registry — they never throw. -/
theorem isSupported_query_semantics (rt : IRuntime) :
    (rt.supports.dialog = none → dialog.isSupported rt = false) ∧
    (∀ d : DialogSupports, rt.supports.dialog = some d →
      dialog.isSupported rt = true) ∧
    (rt.supports.dialog = none → dialog.update.isSupported rt = false) ∧
    (∀ d : DialogSupports, rt.supports.dialog = some d → d.update = none →
      dialog.update.isSupported rt = false) ∧
    (∀ d : DialogSupports, rt.supports.dialog = some d → d.update = some () →
      dialog.update.isSupported rt = true) := by
  refine ⟨fun h => ?_, fun d h => ?_, fun h => ?_, fun d h hu => ?_,
    fun d h hu => ?_⟩
  · simp [dialog.isSupported, h]
  · simp [dialog.isSupported, h]
  · simp [dialog.update.isSupported, h]
  · simp [dialog.update.isSupported, h, hu]
  · simp [dialog.update.isSupported, h, hu]

theorem isSupported_query_semantics_witness :
    dialog.isSupported runtimeEmptySupports = false ∧
    dialog.isSupported runtimeDialogEmpty = true ∧
    dialog.update.isSupported runtimeEmptySupports = false ∧
    dialog.update.isSupported runtimeDialogEmpty = false ∧
    dialog.update.isSupported runtimeDialogUpdate = true := by
  refine ⟨(isSupported_query_semantics runtimeEmptySupports).1 rfl,
    (isSupported_query_semantics runtimeDialogEmpty).2.1 _ rfl,
    (isSupported_query_semantics runtimeEmptySupports).2.2.1 rfl,
    (isSupported_query_semantics runtimeDialogEmpty).2.2.2.1 _ rfl rfl,
    (isSupported_query_semantics runtimeDialogUpdate).2.2.2.2 _ rfl rfl⟩

/-- C9 counterexample: in the initial (pre-publication) default runtime the
dialog key already holds a present object, so the dialog is-supported query
answers true: it is not the case that every capability key of the initial
supports tree is undefined, nor that no capability is supported initially. -/
theorem initialRuntime_dialog_supported :
    initialRuntime.supports.dialog ≠ none ∧
    dialog.isSupported initialRuntime = true := by
  decide

/-- C9 (amended): before any `applyRuntimeConfig` the module-level default
runtime has apiVersion 1 and no isLegacyTeams flag, and a capability path is
supported exactly when it is one of the container keys chat, dialog, pages,
teams and teams.fullTrust: every leaf capability and sub-capability entry is
undefined or absent, hence unsupported, while those five container entries
hold objects (with all their children undefined) and hence count as
supported. -/
theorem initialRuntime_default_state :
    initialRuntime.apiVersion = 1 ∧ initialRuntime.isLegacyTeams = none ∧
    ∀ p : CapPath, initialRuntime.supports.pathSupported p =
      decide (p ∈ [CapPath.chat, CapPath.dialog, CapPath.pages, CapPath.teams,
        CapPath.teams_fullTrust]) := by
  decide

/-- Frame context string values (the `FrameContexts` enum of constants.ts is
not among the staged sources; the string values appear literally in the
staged tests, e.g. src/unnamed/part_000 lines 905-919). -/
def FrameContexts.settings : String := "settings"

def FrameContexts.content : String := "content"

def FrameContexts.authentication : String := "authentication"

def FrameContexts.remove : String := "remove"

def FrameContexts.task : String := "task"

def FrameContexts.sidePanel : String := "sidePanel"

def FrameContexts.stage : String := "stage"

def FrameContexts.meetingStage : String := "meetingStage"

/-- Modelled from the spec: the stable error-kind codes of structured SdkError
objects (spec section 7; interfaces.ts is not among the staged sources — only
the codes' distinctness matters here). -/
inductive ErrorCode where
  | NOT_SUPPORTED_ON_PLATFORM
  | INVALID_ARGUMENTS
  | PERMISSION_DENIED
  | INTERNAL_ERROR
  | OLD_PLATFORM
deriving DecidableEq

/-- A failure surfaced by a capability entry point: either a thrown Error
carrying a message (lifecycle and context errors, spec section 7 kinds 1-2)
or a structured SdkError object (kinds 3-4). -/
inductive CallError where
  | thrown (message : String)
  | sdkErr (errorCode : ErrorCode)
deriving DecidableEq

/-- Modelled from the spec: the structured `errorNotSupportedOnPlatform`
object (spec section 7, error kind 3; asserted by the staged tests,
src/unnamed/part_000 lines 501-509). -/
def errorNotSupportedOnPlatform : CallError :=
  .sdkErr .NOT_SUPPORTED_ON_PLATFORM

/-- The fixed lifecycle error message, asserted verbatim by the staged tests
(e.g. src/unnamed/part_000 line 42). -/
def libraryNotInitializedMessage : String :=
  "The library has not yet been initialized"

/-- JSON serialization of a frame-context string (no enum value needs
escaping, so it is the string between double quotes). -/
def jsonString (s : String) : String := "\"" ++ s ++ "\""

/-- JSON serialization of an allow-list of frame contexts, order
preserving. -/
def jsonStringArray (xs : List String) : String :=
  "[" ++ String.intercalate "," (xs.map jsonString) ++ "]"

/-- Modelled from the spec: the context-error message format (spec section
4.4), asserted verbatim by the staged tests (e.g. src/unnamed/part_000 lines
905-906). -/
def contextErrorMessage (expectedFrameContexts : List String)
    (currentContext : String) : String :=
  "This call is only allowed in following contexts: " ++
    jsonStringArray expectedFrameContexts ++ ". Current context: " ++
    jsonString currentContext ++ "."

/-- The process-wide state a capability entry point consults: the
initialization flag, the current frame context and the published runtime
registry (spec sections 4.4 and 4.6; held by module globals in the source). -/
structure SdkState where
  initialized : Bool
  frameContext : String
  runtimeVal : IRuntime

/-- Modelled from the spec: the `ensureInitialized` guard (spec sections 4.4,
4.6 and 7; internalAPIs.ts is not among the staged sources): before
initialization every call fails fast with the fixed lifecycle message; after
it, when a non-empty allow-list is given and the current frame context is not
a member, the call fails with the context error rendering the allow-list and
the observed context. -/
def ensureInitialized (st : SdkState) (expectedFrameContexts : List String) :
    Except CallError Unit :=
  if st.initialized = false then
    .error (.thrown libraryNotInitializedMessage)
  else if expectedFrameContexts ≠ [] ∧ st.frameContext ∉ expectedFrameContexts then
    .error (.thrown (contextErrorMessage expectedFrameContexts st.frameContext))
  else
    .ok ()

/-- An outbound message envelope handed to the transport: a function name and
the ordered argument list (spec section 6). -/
structure MessageRequest (α : Type) where
  func : String
  args : List α

/-- Modelled from the spec: `dialog.open` (the dialog implementation is not
among the staged sources; behavior asserted by the staged tests,
src/unnamed/part_000 lines 32-133): guard initialization, then the frame
context against the allow-list content, sidePanel, meetingStage, then post
`tasks.startTask` carrying the entire dialog-info argument. -/
def dialog.openDialog {α : Type} (st : SdkState) (urlDialogInfo : α) :
    Except CallError (MessageRequest α) :=
  match ensureInitialized st
    [FrameContexts.content, FrameContexts.sidePanel, FrameContexts.meetingStage] with
  | .error e => .error e
  | .ok _ => .ok { func := "tasks.startTask", args := [urlDialogInfo] }

/-- Modelled from the spec: `dialog.update.resize` (staged tests,
src/unnamed/part_000 lines 134-187): allow-list content, sidePanel, task,
meetingStage; posts `tasks.updateTask` with the dimensions. -/
def dialog.update.resize {α : Type} (st : SdkState) (dimensions : α) :
    Except CallError (MessageRequest α) :=
  match ensureInitialized st
    [FrameContexts.content, FrameContexts.sidePanel, FrameContexts.task,
      FrameContexts.meetingStage] with
  | .error e => .error e
  | .ok _ => .ok { func := "tasks.updateTask", args := [dimensions] }

/-- Modelled from the spec: `dialog.submit` (staged tests,
src/unnamed/part_000 lines 205-264): allow-list content, sidePanel, task,
meetingStage; posts `tasks.completeTask` with the result and the appIds
normalized to a list (a single string becomes a one-element list, a missing
argument the empty list). The two-position argument list is embedded as a
pair. -/
def dialog.submit {α : Type} (st : SdkState) (result : Option α)
    (appIds : Option (String ⊕ List String)) :
    Except CallError (MessageRequest (Option α × List String)) :=
  match ensureInitialized st
    [FrameContexts.content, FrameContexts.sidePanel, FrameContexts.task,
      FrameContexts.meetingStage] with
  | .error e => .error e
  | .ok _ =>
      .ok { func := "tasks.completeTask"
          , args := [(result,
              match appIds with
              | none => []
              | some (.inl one) => [one]
              | some (.inr many) => many)] }

/-- Modelled from the spec: `dialog.bot.open` (staged tests,
src/unnamed/part_000 lines 278-399): same guards and envelope as
`dialog.open`, carrying a bot dialog info. -/
def dialog.bot.openDialog {α : Type} (st : SdkState) (botUrlDialogInfo : α) :
    Except CallError (MessageRequest α) :=
  match ensureInitialized st
    [FrameContexts.content, FrameContexts.sidePanel, FrameContexts.meetingStage] with
  | .error e => .error e
  | .ok _ => .ok { func := "tasks.startTask", args := [botUrlDialogInfo] }

/-- Modelled from the spec: the `location.isSupported` query (spec sections 3
and 6): supported iff the location key of the published registry holds a
non-undefined object. -/
def location.isSupported (rt : IRuntime) : Bool :=
  rt.supports.location.isSome

/-- The props `location.getCurrentLocation` posts (staged tests,
src/unnamed/part_000 line 467). -/
structure LocationProps where
  allowChooseLocation : Bool
  showMap : Bool
deriving DecidableEq

/-- Modelled from the spec: `location.getCurrentLocation` (staged tests,
src/unnamed/part_000 lines 494-564): guard initialization, then the frame
context against the allow-list content, task, then the capability (failing
with the structured errorNotSupportedOnPlatform), then post
`location.getLocation` with the default props. -/
def location.getCurrentLocation (st : SdkState) :
    Except CallError (MessageRequest LocationProps) :=
  match ensureInitialized st [FrameContexts.content, FrameContexts.task] with
  | .error e => .error e
  | .ok _ =>
      if location.isSupported st.runtimeVal = false then
        .error errorNotSupportedOnPlatform
      else
        .ok { func := "location.getLocation"
            , args := [{ allowChooseLocation := false, showMap := false }] }

/-- Modelled from the spec: `location.hasPermission` (staged tests,
src/unnamed/part_000 lines 566-640): guards as for getCurrentLocation, then
posts `permissions.has` with the geolocation device-permission name. -/
def location.hasPermission (st : SdkState) :
    Except CallError (MessageRequest String) :=
  match ensureInitialized st [FrameContexts.content, FrameContexts.task] with
  | .error e => .error e
  | .ok _ =>
      if location.isSupported st.runtimeVal = false then
        .error errorNotSupportedOnPlatform
      else
        .ok { func := "permissions.has", args := [("geolocation")] }

/-- C7: every capability entry point invoked before initialization fails
with exactly the fixed lifecycle message 'The library has not yet been
initialized', regardless of the arguments passed. -/
theorem calls_before_init_throw {α β γ : Type} (st : SdkState)
    (h : st.initialized = false) (info : α) (dims : β) (result : Option γ)
    (appIds : Option (String ⊕ List String)) :
    dialog.openDialog st info = .error (.thrown libraryNotInitializedMessage) ∧
    dialog.update.resize st dims = .error (.thrown libraryNotInitializedMessage) ∧
    dialog.submit st result appIds =
      .error (.thrown libraryNotInitializedMessage) ∧
    dialog.bot.openDialog st info =
      .error (.thrown libraryNotInitializedMessage) ∧
    location.getCurrentLocation st =
      .error (.thrown libraryNotInitializedMessage) ∧
    location.hasPermission st =
      .error (.thrown libraryNotInitializedMessage) := by
  refine ⟨?_, ?_, ?_, ?_, ?_, ?_⟩ <;>
    simp [dialog.openDialog, dialog.update.resize, dialog.submit,
      dialog.bot.openDialog, location.getCurrentLocation,
      location.hasPermission, ensureInitialized, h]

/-- The uninitialized state used by the staged tests (no context, no
published registry). -/
def uninitState : SdkState :=
  { initialized := false, frameContext := FrameContexts.content
  , runtimeVal := runtimeEmptySupports }

theorem calls_before_init_throw_witness :
    dialog.openDialog uninitState ("someUrl") =
      .error (.thrown libraryNotInitializedMessage) ∧
    location.getCurrentLocation uninitState =
      .error (.thrown libraryNotInitializedMessage) := by
  have h := calls_before_init_throw (β := Nat) (γ := Nat) uninitState rfl
    ("someUrl") 0 none none
  exact ⟨h.1, h.2.2.2.2.1⟩

/-- C8: a context-restricted capability call made after initialization from
a frame context outside its allow-list throws a context error whose message
renders exactly the JSON-serialized allow-list (order preserving) and the
JSON-serialized observed context, in the fixed format 'This call is only
allowed in following contexts: ALLOWLIST. Current context: CONTEXT.'. -/
theorem context_guard_error_message {α β γ : Type} (st : SdkState)
    (hinit : st.initialized = true) (info : α) (dims : β) (result : Option γ)
    (appIds : Option (String ⊕ List String)) :
    (st.frameContext ∉ [FrameContexts.content, FrameContexts.sidePanel,
        FrameContexts.meetingStage] →
      dialog.openDialog st info = .error (.thrown (contextErrorMessage
        [FrameContexts.content, FrameContexts.sidePanel,
          FrameContexts.meetingStage] st.frameContext)) ∧
      dialog.bot.openDialog st info = .error (.thrown (contextErrorMessage
        [FrameContexts.content, FrameContexts.sidePanel,
          FrameContexts.meetingStage] st.frameContext))) ∧
    (st.frameContext ∉ [FrameContexts.content, FrameContexts.sidePanel,
        FrameContexts.task, FrameContexts.meetingStage] →
      dialog.update.resize st dims = .error (.thrown (contextErrorMessage
        [FrameContexts.content, FrameContexts.sidePanel, FrameContexts.task,
          FrameContexts.meetingStage] st.frameContext)) ∧
      dialog.submit st result appIds = .error (.thrown (contextErrorMessage
        [FrameContexts.content, FrameContexts.sidePanel, FrameContexts.task,
          FrameContexts.meetingStage] st.frameContext))) ∧
    (st.frameContext ∉ [FrameContexts.content, FrameContexts.task] →
      location.getCurrentLocation st = .error (.thrown (contextErrorMessage
        [FrameContexts.content, FrameContexts.task] st.frameContext)) ∧
      location.hasPermission st = .error (.thrown (contextErrorMessage
        [FrameContexts.content, FrameContexts.task] st.frameContext))) := by
  refine ⟨fun hc => ⟨?_, ?_⟩, fun hc => ⟨?_, ?_⟩, fun hc => ⟨?_, ?_⟩⟩ <;>
    simp [dialog.openDialog, dialog.update.resize, dialog.submit,
      dialog.bot.openDialog, location.getCurrentLocation,
      location.hasPermission, ensureInitialized, hinit, hc]

/-- An initialized state sitting in the settings frame context with an
empty-supports registry, as the staged tests set up. -/
def settingsState : SdkState :=
  { initialized := true, frameContext := FrameContexts.settings
  , runtimeVal := runtimeEmptySupports }

theorem context_guard_error_message_witness :
    location.getCurrentLocation settingsState =
      .error (.thrown (contextErrorMessage
        [FrameContexts.content, FrameContexts.task] FrameContexts.settings)) ∧
    contextErrorMessage [FrameContexts.content, FrameContexts.task]
        FrameContexts.settings =
      "This call is only allowed in following contexts: [\"content\",\"task\"]. Current context: \"settings\"." := by
  have h := context_guard_error_message (α := Nat) (β := Nat) (γ := Nat)
    settingsState rfl 0 0 none none
  exact ⟨(h.2.2 (by decide)).1, by decide⟩

/-- Modelled from the spec: the Message Correlation Engine's pending-request
state (spec sections 3 and 4.5; the communication layer is not among the
staged sources): the next correlation id to allocate and the ids of requests
awaiting a response. In a response's args list, `none` embeds an
undefined/null element and `some` a present non-null element, following the
transport convention of spec section 6. -/
structure CorrelationState where
  nextMessageId : Nat
  pendingIds : List Nat

/-- Modelled from the spec: send-and-await allocates a fresh correlation id,
records the pending request under it and tags the outbound message with it
(spec section 4.5). -/
def sendMessageRequest (st : CorrelationState) : CorrelationState × Nat :=
  ({ nextMessageId := st.nextMessageId + 1
   , pendingIds := st.pendingIds ++ [st.nextMessageId] }, st.nextMessageId)

/-- How a pending request settles: its reject continuation receives the
carried error payload, or its resolve continuation receives the success
arguments. -/
inductive ResponseOutcome (α : Type) where
  | rejected (err : α)
  | resolved (successArgs : List (Option α))

/-- Modelled from the spec: the transport convention "first argument present
and non-null means error, else success" (spec section 4.5): the error payload
is passed through verbatim, uninterpreted; otherwise the remaining args are
the success values. -/
def dispatchOutcome {α : Type} (args : List (Option α)) : ResponseOutcome α :=
  match args with
  | some err :: _ => .rejected err
  | _ => .resolved (args.drop 1)

/-- Modelled from the spec: response dispatch (spec section 4.5) — an inbound
envelope whose correlation id matches a pending request removes that request
(at-most-once delivery) and settles it by `dispatchOutcome`; an envelope with
an unknown id settles nothing. -/
def handleResponse {α : Type} (st : CorrelationState) (id : Nat)
    (args : List (Option α)) : CorrelationState × Option (ResponseOutcome α) :=
  if id ∈ st.pendingIds then
    ({ st with pendingIds := st.pendingIds.erase id },
      some (dispatchOutcome args))
  else (st, none)

/-- C6: when a response envelope bearing the same correlation id as an
outbound message arrives, the pending request is removed and the returned
promise rejects with exactly the response's first args element when that
element is present and non-null — passed through verbatim — and resolves
with the following success values when the first element is undefined; the
id assigned by send-and-await is tracked, so its response settles it. -/
theorem response_settlement {α : Type} (st : CorrelationState) (id : Nat)
    (hp : id ∈ st.pendingIds) (err : α) (rest : List (Option α)) :
    ((sendMessageRequest st).2 ∈ (sendMessageRequest st).1.pendingIds) ∧
    handleResponse st id (some err :: rest) =
      ({ st with pendingIds := st.pendingIds.erase id },
        some (ResponseOutcome.rejected err)) ∧
    handleResponse st id (none :: rest) =
      ({ st with pendingIds := st.pendingIds.erase id },
        some (ResponseOutcome.resolved rest)) := by
  refine ⟨?_, ?_, ?_⟩
  · simp [sendMessageRequest]
  · simp [handleResponse, hp, dispatchOutcome]
  · simp [handleResponse, hp, dispatchOutcome]

theorem response_settlement_witness :
    handleResponse { nextMessageId := 2, pendingIds := [0, 1] } 1
        [some ErrorCode.PERMISSION_DENIED, none] =
      ({ nextMessageId := 2, pendingIds := [0] },
        some (ResponseOutcome.rejected ErrorCode.PERMISSION_DENIED)) := by
  have h := response_settlement { nextMessageId := 2, pendingIds := [0, 1] } 1
    (by decide) ErrorCode.PERMISSION_DENIED [none]
  exact h.2.1.trans rfl

mutual

/-- Modelled from the spec: a JS value tree for the deep-freeze model (spec
sections 3 and 4.3; `deepFreeze` lives in internal/utils.ts, which is not
among the staged sources): undefined, an opaque primitive, or an object
carrying its frozen flag and its named fields. -/
inductive JVal where
  | undef : JVal
  | prim : String → JVal
  | obj : Bool → JFields → JVal

/-- The field list of an object value in the deep-freeze model. -/
inductive JFields where
  | fnil : JFields
  | fcons : String → JVal → JFields → JFields

end

/-- Assignment into a field list: replaces the value under an existing name
or appends a new field. -/
def setField : JFields → String → JVal → JFields
  | .fnil, name, v => .fcons name v .fnil
  | .fcons n w r, name, v =>
      if n = name then .fcons n v r else .fcons n w (setField r name v)

mutual

/-- Modelled from the spec: deep freeze (spec section 4.3) — every object
reachable from the value gets its frozen flag set. -/
def deepFreeze : JVal → JVal
  | .undef => .undef
  | .prim t => .prim t
  | .obj _ fs => .obj true (deepFreezeFields fs)

def deepFreezeFields : JFields → JFields
  | .fnil => .fnil
  | .fcons n v r => .fcons n (deepFreeze v) (deepFreezeFields r)

end

mutual

/-- Whether every object reachable from the value is frozen. -/
def allFrozen : JVal → Bool
  | .undef => true
  | .prim _ => true
  | .obj frozen fs => frozen && allFrozenFields fs

def allFrozenFields : JFields → Bool
  | .fnil => true
  | .fcons _ v r => allFrozen v && allFrozenFields r

end

mutual

/-- Modelled from the spec: an attempted property assignment
`root.p1. ... .pn = w` against the value tree — navigate the path and assign
on the object reached; the assignment is a silent no-op when that object is
frozen (spec section 4.3: a mutation attempt must be "a no-op or a failure,
never a silent write"); a write addressed through a missing or non-object
path does nothing. -/
def writeAt : JVal → List String → JVal → JVal
  | .obj frozen fs, [name], w =>
      if frozen then .obj frozen fs else .obj frozen (setField fs name w)
  | .obj frozen fs, name :: rest, w => .obj frozen (writeAtFields fs name rest w)
  | v, _, _ => v
termination_by v path w => (path.length, 0, 0)

def writeAtFields : JFields → String → List String → JVal → JFields
  | .fnil, _, _, _ => .fnil
  | .fcons n v r, name, rest, w =>
      if n = name then .fcons n (writeAt v rest w) r
      else .fcons n v (writeAtFields r name rest w)
termination_by fs name rest w => (rest.length, 1, sizeOf fs)

end

mutual

theorem allFrozen_deepFreeze : ∀ v : JVal, allFrozen (deepFreeze v) = true
  | .undef => rfl
  | .prim _ => rfl
  | .obj _ fs => by
      simp [deepFreeze, allFrozen, allFrozenFields_deepFreezeFields fs]

theorem allFrozenFields_deepFreezeFields :
    ∀ fs : JFields, allFrozenFields (deepFreezeFields fs) = true
  | .fnil => rfl
  | .fcons _ v r => by
      simp [deepFreezeFields, allFrozenFields, allFrozen_deepFreeze v,
        allFrozenFields_deepFreezeFields r]

end

mutual

theorem writeAt_frozen_noop : ∀ (v : JVal), allFrozen v = true →
    ∀ (path : List String) (w : JVal), writeAt v path w = v
  | .undef, _, path, _ => by cases path <;> simp [writeAt]
  | .prim _, _, path, _ => by cases path <;> simp [writeAt]
  | .obj frozen fs, hv, path, w => by
      rw [allFrozen, Bool.and_eq_true] at hv
      obtain ⟨hfr, hfs⟩ := hv
      subst hfr
      match path with
      | [] => simp [writeAt]
      | [name] => simp [writeAt]
      | name :: r1 :: rest =>
          simp [writeAt, writeAtFields_frozen_noop fs hfs name (r1 :: rest) w]

theorem writeAtFields_frozen_noop : ∀ (fs : JFields),
    allFrozenFields fs = true →
    ∀ (name : String) (rest : List String) (w : JVal),
      writeAtFields fs name rest w = fs
  | .fnil, _, _, _, _ => by simp [writeAtFields]
  | .fcons n v r, hf, name, rest, w => by
      rw [allFrozenFields, Bool.and_eq_true] at hf
      obtain ⟨hv, hr⟩ := hf
      by_cases hn : n = name
      · simp [writeAtFields, hn, writeAt_frozen_noop v hv rest w]
      · simp [writeAtFields, hn, writeAtFields_frozen_noop r hr name rest w]

end

/-- The published-registry slot: the module-level mutable `runtime` binding of
runtime.ts, seen by the deep-freeze model. -/
structure RuntimeStore where
  runtimeVal : JVal

/-- `applyRuntimeConfig` (runtime.ts, lines 210-212) over the deep-freeze
model: replace the live registry wholesale with the deep-frozen
configuration (the previous registry value plays no part). -/
def applyRuntimeConfig (st : RuntimeStore) (runtimeConfig : JVal) :
    RuntimeStore :=
  { runtimeVal := deepFreeze runtimeConfig }

/-- C5: after `applyRuntimeConfig` publishes a configuration, the live
registry is the deeply-frozen configuration, every object reachable from its
root is frozen, and every attempted mutation of any nested field of the
published registry is a no-op — no caller ever observes a write. -/
theorem applyRuntimeConfig_freezes (st : RuntimeStore) (config : JVal) :
    (applyRuntimeConfig st config).runtimeVal = deepFreeze config ∧
    allFrozen (applyRuntimeConfig st config).runtimeVal = true ∧
    ∀ (path : List String) (w : JVal),
      writeAt (applyRuntimeConfig st config).runtimeVal path w =
        (applyRuntimeConfig st config).runtimeVal := by
  exact ⟨rfl, allFrozen_deepFreeze config,
    fun path w => writeAt_frozen_noop (deepFreeze config)
      (allFrozen_deepFreeze config) path w⟩

/-- A heap value for the frame-effect model of
`generateBackCompatRuntimeConfig`: undefined, a number, a boolean, or a
reference to a heap object. -/
inductive HVal where
  | undef : HVal
  | num : Int → HVal
  | bool : Bool → HVal
  | href : Nat → HVal
deriving DecidableEq

/-- A heap object: its named fields in insertion order. -/
abbrev HObj := List (String × HVal)

/-- The object store: objects indexed by allocation order. -/
abbrev Store := List HObj

/-- Allocation appends a fresh object to the store and returns its id; it is
the only way the store ever changes. -/
def alloc (s : Store) (o : HObj) : Store × Nat := (s ++ [o], s.length)

def lookupObj (s : Store) (id : Nat) : HObj := (s.get? id).getD []

/-- One key of a JS spread landing on a field list: replaces the value under
an existing key in place, or appends the key. -/
def setKey (o : HObj) (k : String) (v : HVal) : HObj :=
  if o.any (fun kv => kv.1 = k) then
    o.map (fun kv => if kv.1 = k then (k, v) else kv)
  else o ++ [(k, v)]

/-- The JS spread at the field level: the override's fields land left to
right on top of the base's fields. -/
def spreadMerge (base override : HObj) : HObj :=
  override.foldl (fun acc kv => setKey acc kv.1 kv.2) base

/-- A capability requirement entry for the heap model: the capability
fragment lives in the store as an object (runtime.ts, lines 132-135). -/
structure HCapabilityReqs where
  capability : Nat
  hostClientTypes : List String

/-- The merged field list `generateBackCompatRuntimeConfig` computes: the
baseline supports object's fields, spread-merged with each applicable
threshold entry's capability fragment (runtime.ts, lines 187-200). -/
def backCompatMergedFields (s : Store)
    (versionTable : List (List Nat × List HCapabilityReqs))
    (baseSupports : Nat) (hostClientType : String) (v : List Nat) : HObj :=
  versionTable.foldl
    (fun acc entry =>
      if compareSDKVersions v entry.1 ≥ 0 then
        entry.2.foldl
          (fun acc2 req =>
            if hostClientType ∈ req.hostClientTypes then
              spreadMerge acc2 (lookupObj s req.capability)
            else acc2)
          acc
      else acc)
    (lookupObj s baseSupports)

/-- `generateBackCompatRuntimeConfig` (runtime.ts, lines 186-208) re-embedded
against an explicit object store: the baseline supports tree and the
capability fragments are heap objects; the function reads them, computes the
merged field list, and allocates the new supports object and the new config
object — it performs no write into any existing object. The threshold keys
and host-type lists are passed as immutable values, since the function only
reads them. -/
def generateBackCompatRuntimeConfigHeap (s : Store)
    (versionTable : List (List Nat × List HCapabilityReqs))
    (baseSupports : Nat) (hostClientType : String) (v : List Nat) :
    Store × Nat :=
  let a1 := alloc s
    (backCompatMergedFields s versionTable baseSupports hostClientType v)
  let a2 := alloc a1.1
    [("apiVersion", HVal.num 1), ("isLegacyTeams", HVal.bool true),
      ("supports", HVal.href a1.2)]
  (a2.1, a2.2)

theorem store_get_append (s t : Store) (i : Nat) (hi : i < s.length) :
    (s ++ t).get? i = s.get? i := by
  induction s generalizing i with
  | nil => exact absurd hi (by simp)
  | cons a as ih =>
      cases i with
      | zero => rfl
      | succ j => exact ih j (by simpa using hi)

/-- C10: `generateBackCompatRuntimeConfig` never mutates its global inputs:
it only allocates, so the store it returns extends the input store by the
freshly allocated objects, and every pre-existing object — the baseline
`teamsRuntimeConfig` supports tree and every `versionConstants` capability
fragment among them — is unchanged at its id. -/
theorem generateBackCompat_preserves_globals (s : Store)
    (versionTable : List (List Nat × List HCapabilityReqs))
    (baseSupports : Nat) (hostClientType : String) (v : List Nat) (i : Nat)
    (hi : i < s.length) :
    (∃ fresh : Store,
      (generateBackCompatRuntimeConfigHeap s versionTable baseSupports
        hostClientType v).1 = s ++ fresh) ∧
    (generateBackCompatRuntimeConfigHeap s versionTable baseSupports
      hostClientType v).1.get? i = s.get? i := by
  have h : (generateBackCompatRuntimeConfigHeap s versionTable baseSupports
      hostClientType v).1 =
      (s ++ [backCompatMergedFields s versionTable baseSupports hostClientType v]) ++
        [[("apiVersion", HVal.num 1), ("isLegacyTeams", HVal.bool true),
          ("supports", HVal.href s.length)]] := rfl
  constructor
  · refine ⟨backCompatMergedFields s versionTable baseSupports hostClientType v ::
      [[("apiVersion", HVal.num 1), ("isLegacyTeams", HVal.bool true),
        ("supports", HVal.href s.length)]], ?_⟩
    rw [h, List.append_assoc]
    rfl
  · rw [h, store_get_append _ _ i (by simp; omega)]
    exact store_get_append s _ i hi

/-- A concrete store holding the global objects of runtime.ts as heap
objects: ids 0-27 are the nested objects of `teamsRuntimeConfig.supports`
(in source order), id 28 is the supports object itself, and ids 29-36 are
the capability fragments of `versionConstants` with their nested objects. -/
def globalsStore : Store :=
  [ []                                   -- 0  appInstallDialog
  , []                                   -- 1  appEntity
  , []                                   -- 2  call
  , []                                   -- 3  chat.conversation
  , [("conversation", HVal.href 3)]      -- 4  chat
  , []                                   -- 5  dialog.bot
  , []                                   -- 6  dialog.update
  , [("bot", HVal.href 5), ("update", HVal.href 6)]  -- 7  dialog
  , []                                   -- 8  files
  , []                                   -- 9  logs
  , []                                   -- 10 media
  , []                                   -- 11 meeting
  , []                                   -- 12 meetingRoom
  , []                                   -- 13 menus
  , []                                   -- 14 monetization
  , []                                   -- 15 notifications
  , []                                   -- 16 pages.appButton
  , []                                   -- 17 pages.tabs
  , []                                   -- 18 pages.config
  , []                                   -- 19 pages.backStack
  , []                                   -- 20 pages.fullTrust
  , [("appButton", HVal.href 16), ("tabs", HVal.href 17),
      ("config", HVal.href 18), ("backStack", HVal.href 19),
      ("fullTrust", HVal.href 20)]       -- 21 pages
  , []                                   -- 22 remoteCamera
  , []                                   -- 23 sharing
  , []                                   -- 24 teams.fullTrust
  , [("fullTrust", HVal.href 24)]        -- 25 teams
  , []                                   -- 26 teamsCore
  , []                                   -- 27 video
  , [("appInstallDialog", HVal.href 0), ("appEntity", HVal.href 1),
      ("call", HVal.href 2), ("chat", HVal.href 4), ("dialog", HVal.href 7),
      ("files", HVal.href 8), ("logs", HVal.href 9), ("media", HVal.href 10),
      ("meeting", HVal.href 11), ("meetingRoom", HVal.href 12),
      ("menus", HVal.href 13), ("monetization", HVal.href 14),
      ("notifications", HVal.href 15), ("pages", HVal.href 21),
      ("remoteCamera", HVal.href 22), ("sharing", HVal.href 23),
      ("teams", HVal.href 25), ("teamsCore", HVal.href 26),
      ("video", HVal.href 27)]           -- 28 teamsRuntimeConfig.supports
  , []                                   -- 29 fragment location
  , [("location", HVal.href 29)]         -- 30 capability of the 1.9.0 entry
  , []                                   -- 31 fragment people
  , [("people", HVal.href 31)]           -- 32 capability of the 2.0.0 entry
  , []                                   -- 33 fragment teams.fullTrust.joinedTeams
  , [("joinedTeams", HVal.href 33)]      -- 34 fragment teams.fullTrust
  , [("fullTrust", HVal.href 34)]        -- 35 fragment teams
  , [("teams", HVal.href 35)]            -- 36 capability of the 2.0.1 entry
  ]

/-- The `versionConstants` table for the heap model: the same threshold keys
and host lists as `versionConstants`, with each capability fragment given by
its id in `globalsStore`. -/
def versionConstantsHeap : List (List Nat × List HCapabilityReqs) :=
  [ ([1, 9, 0], [{ capability := 30, hostClientTypes := v1HostClientTypes }])
  , ([2, 0, 0], [{ capability := 32, hostClientTypes := v1HostClientTypes }])
  , ([2, 0, 1], [{ capability := 36, hostClientTypes := androidHostClientTypes }]) ]

theorem generateBackCompat_preserves_globals_witness :
    (∃ fresh : Store,
      (generateBackCompatRuntimeConfigHeap globalsStore versionConstantsHeap
        28 HostClientType.web [9, 9, 9]).1 = globalsStore ++ fresh) ∧
    (generateBackCompatRuntimeConfigHeap globalsStore versionConstantsHeap
      28 HostClientType.web [9, 9, 9]).1.get? 28 = globalsStore.get? 28 :=
  generateBackCompat_preserves_globals globalsStore versionConstantsHeap 28
    HostClientType.web [9, 9, 9] 28 (by decide)
